import Mathlib

/-!
Shallow embedding of the scheduling-consistency core of the calpal
repository (minimal scheduling application), together with theorems
checking its natural-language specification.

Conventions of the embedding:
* JavaScript `Date` instants are modelled as `Int` epoch milliseconds;
  `Date` comparison in the source compares these values.
* Prisma tables are modelled as Lean lists carried in an explicit state
  record (`SchedulerDb`); `findFirst` / `findUnique` become `List.find?`,
  `findMany` with a `where` clause becomes `List.filter`, and `upsert`
  becomes a keyed update-or-append on the list.
* Thrown `TRPCError`s / rejected promises become `Except` errors.
* External collaborators (the Google Calendar list-events endpoint, the
  OAuth refresh endpoint, the symmetric crypto helpers, the JS Date
  local-time primitives and date-fns-tz conversions) are taken as
  parameters, so every theorem quantifies over their behaviour.
-/

namespace Calpal

/-- `BookingStatus` enum from `@calcom/prisma/enums`. -/
inductive BookingStatus where
  | PENDING
  | CONFIRMED
  | REJECTED
  | CANCELLED
deriving DecidableEq, Repr

/-- `TRPCError` codes used by the booking service. -/
inductive TrpcCode where
  | BAD_REQUEST
  | CONFLICT
  | NOT_FOUND
deriving DecidableEq, Repr

/-- A thrown `TRPCError ({ code, message })`. -/
structure TrpcError where
  code : TrpcCode
  message : String
deriving DecidableEq, Repr

/-- A `Booking` row (prisma model `Booking`), restricted to the columns the
core reads or writes.  `uid` generation appends a random suffix in the
source (`Math.random().toString(36)`); the suffix is a parameter `rand` of
`createPendingBooking`. -/
structure Booking where
  id : Nat
  uid : String
  userId : Int
  startTime : Int
  endTime : Int
  title : String
  description : Option String
  status : BookingStatus
  attendeeName : String
  attendeeEmail : String
  videoProvider : Option String
  videoLink : Option String
  calendarEventId : Option String
  timezone : String
deriving DecidableEq, Repr

/-- An `AvailabilityBlock` row.  `startTime` / `endTime` store a time of
day as a JS `Date`; only `getHours()` / `getMinutes()` of them are read. -/
structure AvailabilityBlock where
  id : String
  userId : Int
  dayOfWeek : Int
  startTime : Int
  endTime : Int
  timezone : String
  isActive : Bool
deriving DecidableEq, Repr

/-- A `CalendarIntegration` row.  `accessToken` and `refreshToken` hold
ciphertext produced by `symmetricEncrypt` (the crypto functions are
parameters of the operations that use them). -/
structure CalendarIntegration where
  id : String
  userId : Int
  type : String
  accessToken : String
  refreshToken : Option String
  tokenExpiresAt : Option Int
  calendarId : String
  syncToken : Option String
  lastSyncAt : Option Int
  syncStatus : String
  syncError : Option String
deriving DecidableEq, Repr

/-- A `CalendarEvent` row: a cached busy interval synced from the external
calendar, keyed by `(calendarIntegrationId, externalEventId)` (unique
index in the prisma schema). -/
structure CalendarEvent where
  calendarIntegrationId : String
  externalEventId : String
  startTime : Int
  endTime : Int
  title : String
  isBusy : Bool
  syncedAt : Int
deriving DecidableEq, Repr

/-- The persisted state read and written by the core services: the four
tables of the data model plus the autoincrement counter for booking ids. -/
structure SchedulerDb where
  availabilityBlocks : List AvailabilityBlock
  integrations : List CalendarIntegration
  calendarEvents : List CalendarEvent
  bookings : List Booking
  nextBookingId : Nat
deriving DecidableEq, Repr

/-- A start/end pair, the duck-typed `{ startTime, endTime }` shape that
`slotsOverlap` accepts in the source. -/
structure Interval where
  startTime : Int
  endTime : Int
deriving DecidableEq, Repr

/-- `MinimalAvailabilityService.slotsOverlap`:
`slot1.startTime < slot2.endTime && slot1.endTime > slot2.startTime`. -/
def slotsOverlap (slot1 slot2 : Interval) : Bool :=
  slot1.startTime < slot2.endTime && slot1.endTime > slot2.startTime

/-! ## Booking Conflict Guard (`MinimalBookingService.createPendingBooking`) -/

/-- Input of `createPendingBooking` after the zod schema parse; the string
refinements of the schema (name length, email shape) affect no claim and
are represented by the field types. -/
structure CreatePendingBookingInput where
  userId : Int
  startTime : Int
  endTime : Int
  attendeeName : String
  attendeeEmail : String
  notes : Option String
  videoProvider : Option String
  timezone : String
  title : Option String
deriving DecidableEq, Repr

/-- `15 * 60 * 1000` — minimum booking duration in ms. -/
def minDuration : Int := 15 * 60 * 1000

/-- `8 * 60 * 60 * 1000` — maximum booking duration in ms. -/
def maxDuration : Int := 8 * 60 * 60 * 1000

/-- The three-clause `OR` of the prisma `where` used by
`createPendingBooking` to look for an overlapping booking (existing row
against the requested interval `[newStart, newEnd)`). -/
def bookingOverlapWhere (existing : Booking) (newStart newEnd : Int) : Bool :=
  (existing.startTime ≤ newStart && existing.endTime > newStart) ||
  (existing.startTime < newEnd && existing.endTime ≥ newEnd) ||
  (existing.startTime ≥ newStart && existing.endTime ≤ newEnd)

/-- Full `where` clause of the `tx.booking.findFirst` in
`createPendingBooking`: same admin, status in {PENDING, CONFIRMED}, and
the three-clause overlap disjunction. -/
def overlappingBookingWhere (userId : Int) (newStart newEnd : Int)
    (b : Booking) : Bool :=
  b.userId == userId &&
  (b.status == BookingStatus.PENDING || b.status == BookingStatus.CONFIRMED) &&
  bookingOverlapWhere b newStart newEnd

/-- `MinimalBookingService.createPendingBooking`.  `now` is the value of
`new Date()` at the validation step, `rand` the random uid suffix.  The
check-then-insert runs inside one `prisma.$transaction`; the transaction
body is embedded as a single state transition (the serialization of
transactions itself is delegated to the backing store, spec section 5).
The notification emails at the end of the transaction are caught and
ignored on failure in the source and do not affect the state modelled
here. -/
def createPendingBooking (now : Int) (rand : String)
    (input : CreatePendingBookingInput) (db : SchedulerDb) :
    Except TrpcError (SchedulerDb × Booking) :=
  let durationMs := input.endTime - input.startTime
  if durationMs < minDuration then
    .error ⟨.BAD_REQUEST, "Booking duration must be at least 15 minutes"⟩
  else if durationMs > maxDuration then
    .error ⟨.BAD_REQUEST, "Booking duration cannot exceed 8 hours"⟩
  else if input.startTime < now then
    .error ⟨.BAD_REQUEST, "Cannot book time slots in the past"⟩
  else
    match db.bookings.find?
        (overlappingBookingWhere input.userId input.startTime input.endTime) with
    | some _ => .error ⟨.CONFLICT, "Time slot is no longer available"⟩
    | none =>
      let booking : Booking :=
        { id := db.nextBookingId
          uid := "booking-" ++ toString now ++ "-" ++ rand
          userId := input.userId
          startTime := input.startTime
          endTime := input.endTime
          title := input.title.getD ("Meeting with " ++ input.attendeeName)
          description := input.notes
          status := .PENDING
          attendeeName := input.attendeeName
          attendeeEmail := input.attendeeEmail
          videoProvider := input.videoProvider
          videoLink := none
          calendarEventId := none
          timezone := input.timezone }
      .ok ({ db with bookings := db.bookings ++ [booking],
                     nextBookingId := db.nextBookingId + 1 }, booking)

/-! ## Slot Computation Engine (`MinimalAvailabilityService`) -/

/-- A slot returned by `calculateAvailableSlots`: UTC instants plus
display strings formatted in the requested time zone. -/
structure TimeSlot where
  startTime : Int
  endTime : Int
  displayStartTime : String
  displayEndTime : String
deriving DecidableEq, Repr

/-- The `{ startTime, endTime }` view of a slot passed to `slotsOverlap`. -/
def TimeSlot.interval (s : TimeSlot) : Interval :=
  ⟨s.startTime, s.endTime⟩

/-- Environment of JS `Date` local-time primitives and date-fns-tz
functions used by `generateSlotsFromBlock`.  These depend on the server
local time zone and the IANA database and are taken as parameters:

* `dayOfWeekOf t`        — `new Date(t).getDay()`
* `setTimeOfDay t h m`   — `new Date(t).setHours(h, m, 0, 0)`
* `nextDayStart t`       — `setDate(getDate() + 1)` then `setHours(0,0,0,0)`
* `hoursOf t / minutesOf t` — `getHours()` / `getMinutes()`
* `fromZonedTime t tz`   — date-fns-tz conversion used by `convertToUTC`
* `formatInTimeZone t tz` — display formatting (presentation only) -/
structure ClockModel where
  dayOfWeekOf : Int → Int
  setTimeOfDay : Int → Int → Int → Int
  nextDayStart : Int → Int
  hoursOf : Int → Int
  minutesOf : Int → Int
  fromZonedTime : Int → String → Int
  formatInTimeZone : Int → String → String

/-- Inner `while` loop of `generateSlotsFromBlock`: emit consecutive slots
of `slotDurationMs` stepping from `slotStart` while the slot end does not
exceed `maxEnd`.  The source loop advances `slotStart` by a positive step;
the embedding bounds the iteration count by explicit `fuel`. -/
def slotLoop (clock : ClockModel) (userTimezone : String)
    (slotDurationMs maxEnd : Int) : Nat → Int → List TimeSlot
  | 0, _ => []
  | fuel + 1, slotStart =>
    if slotStart + slotDurationMs ≤ maxEnd then
      let slotEnd := slotStart + slotDurationMs
      { startTime := slotStart
        endTime := slotEnd
        displayStartTime := clock.formatInTimeZone slotStart userTimezone
        displayEndTime := clock.formatInTimeZone slotEnd userTimezone } ::
        slotLoop clock userTimezone slotDurationMs maxEnd fuel (slotStart + slotDurationMs)
    else []

/-- Body of the per-day branch of `generateSlotsFromBlock`: when the day
matches the block day-of-week, clip the block window (converted to UTC
with the block time zone) to the requested range and run the slot loop. -/
def daySlots (clock : ClockModel) (block : AvailabilityBlock)
    (startDate endDate : Int) (userTimezone : String)
    (slotDurationMs : Int) (fuel : Nat) (currentDate : Int) : List TimeSlot :=
  if clock.dayOfWeekOf currentDate == block.dayOfWeek then
    let dayStart := clock.setTimeOfDay currentDate
      (clock.hoursOf block.startTime) (clock.minutesOf block.startTime)
    let dayEnd := clock.setTimeOfDay currentDate
      (clock.hoursOf block.endTime) (clock.minutesOf block.endTime)
    let dayStartUTC := clock.fromZonedTime dayStart block.timezone
    let dayEndUTC := clock.fromZonedTime dayEnd block.timezone
    let firstSlotStart := max dayStartUTC startDate
    let maxEnd := min dayEndUTC endDate
    slotLoop clock userTimezone slotDurationMs maxEnd fuel firstSlotStart
  else []

/-- Outer day loop of `generateSlotsFromBlock` (`while currentDate <=
endDate`), bounded by `fuel`. -/
def dayLoop (clock : ClockModel) (block : AvailabilityBlock)
    (startDate endDate : Int) (userTimezone : String)
    (slotDurationMs : Int) (slotFuel : Nat) : Nat → Int → List TimeSlot
  | 0, _ => []
  | fuel + 1, currentDate =>
    if currentDate ≤ endDate then
      daySlots clock block startDate endDate userTimezone slotDurationMs slotFuel currentDate ++
        dayLoop clock block startDate endDate userTimezone slotDurationMs slotFuel fuel
          (clock.nextDayStart currentDate)
    else []

/-- `MinimalAvailabilityService.generateSlotsFromBlock`. -/
def generateSlotsFromBlock (clock : ClockModel) (fuel : Nat)
    (block : AvailabilityBlock) (startDate endDate : Int)
    (userTimezone : String) (slotDurationMinutes : Int) : List TimeSlot :=
  let slotDurationMs := slotDurationMinutes * 60 * 1000
  dayLoop clock block startDate endDate userTimezone slotDurationMs fuel fuel startDate

/-- The `where` clause of the integration lookup in
`MinimalAvailabilityService.getCalendarEvents`. -/
def activeGoogleIntegration (userId : Int) (i : CalendarIntegration) : Bool :=
  i.userId == userId && i.type == "google-calendar" && i.syncStatus == "active"

/-- `MinimalAvailabilityService.getCalendarEvents`: the cached busy
intervals of the first active google-calendar integration of the admin
that overlap (closed test) the requested range; empty when no active
integration exists. -/
def getCalendarEvents (db : SchedulerDb) (userId : Int)
    (startDate endDate : Int) : List Interval :=
  match db.integrations.find? (activeGoogleIntegration userId) with
  | none => []
  | some integration =>
    (db.calendarEvents.filter fun e =>
      e.calendarIntegrationId == integration.id && e.isBusy &&
      decide (e.startTime ≤ endDate) && decide (e.endTime ≥ startDate)).map
      fun e => ⟨e.startTime, e.endTime⟩

/-- The booking `findMany` filter of `calculateAvailableSlots`: same
admin, status in {PENDING, CONFIRMED}, interval meets the range. -/
def bookingInRange (userId : Int) (startDate endDate : Int) (b : Booking) : Bool :=
  b.userId == userId &&
  (b.status == BookingStatus.PENDING || b.status == BookingStatus.CONFIRMED) &&
  (decide (b.startTime ≤ endDate) && decide (b.endTime ≥ startDate))

/-- Ordering used by the final `availableSlots.sort((a, b) =>
a.startTime.getTime() - b.startTime.getTime())`. -/
def slotLE (a b : TimeSlot) : Prop :=
  a.startTime ≤ b.startTime

instance : DecidableRel slotLE := fun _ _ => Int.decLe _ _

instance : IsTotal TimeSlot slotLE :=
  ⟨fun a b => Int.le_total a.startTime b.startTime⟩

instance : IsTrans TimeSlot slotLE :=
  ⟨fun _ _ _ h1 h2 => le_trans h1 h2⟩

/-- The candidate filter of `calculateAvailableSlots`: drop a slot when it
half-open-overlaps a fetched calendar event, else when it overlaps a
fetched booking. -/
def slotSurvives (calendarEvents : List Interval) (bookings : List Booking)
    (slot : TimeSlot) : Bool :=
  let conflictsWithCalendar :=
    calendarEvents.any fun event => slotsOverlap slot.interval event
  if conflictsWithCalendar then false
  else
    let conflictsWithBooking :=
      bookings.any fun booking =>
        slotsOverlap slot.interval ⟨booking.startTime, booking.endTime⟩
    !conflictsWithBooking

/-- `MinimalAvailabilityService.calculateAvailableSlots`. -/
def calculateAvailableSlots (clock : ClockModel) (fuel : Nat)
    (db : SchedulerDb) (userId : Int) (startDate endDate : Int)
    (userTimezone : String) (slotDurationMinutes : Int) : List TimeSlot :=
  let availabilityBlocks :=
    db.availabilityBlocks.filter fun b => b.userId == userId && b.isActive
  if availabilityBlocks.isEmpty then []
  else
    let calendarEvents := getCalendarEvents db userId startDate endDate
    let bookings := db.bookings.filter (bookingInRange userId startDate endDate)
    let allSlots := (availabilityBlocks.map fun block =>
      generateSlotsFromBlock clock fuel block startDate endDate userTimezone
        slotDurationMinutes).flatten
    let availableSlots := allSlots.filter (slotSurvives calendarEvents bookings)
    availableSlots.insertionSort slotLE

/-! ## Calendar Sync Engine (`CalendarSyncService`) -/

/-- A provider event as mapped by `GoogleCalendarClient.mapEvent`.
`startDateTime` / `endDateTime` model `start?.dateTime` / `end?.dateTime`
by the parsed instant (ISO strings off the wire are represented by their
`new Date(...)` value); all-day events carry only `date` and so have
`startDateTime = none`.  An event missing an id maps to the empty
string. -/
structure GoogleCalendarEvent where
  id : String
  startDateTime : Option Int
  endDateTime : Option Int
  summary : Option String
deriving DecidableEq, Repr

/-- `SyncEventsResult` returned by `GoogleCalendarClient.listEvents`. -/
structure SyncEventsResult where
  events : List GoogleCalendarEvent
  nextSyncToken : Option String
deriving Repr

/-- Options object passed to `listEvents`: either a sync token or an
explicit window. -/
structure ListEventsOptions where
  syncToken : Option String
  timeMin : Option Int
  timeMax : Option Int
deriving DecidableEq, Repr

/-- The external list-events call (`GoogleCalendarClient.listEvents`,
which wraps the Google API): a function from calendar id and options to
events or an error message.  Taken as a parameter of the sync
operations. -/
abbrev CalendarProvider := String → ListEventsOptions → Except String SyncEventsResult

/-- `SyncResult` returned by the sync operations. -/
structure SyncResult where
  eventsSynced : Nat
  nextSyncToken : Option String
  lastSyncAt : Int
  hasError : Bool
  errorMessage : Option String
deriving DecidableEq, Repr

/-- A prisma `update` on `calendarIntegration` (`where: { id }`): maps the
matching row, and fails (P2025 record-not-found rejection) when no row
has the id. -/
def updateIntegration (db : SchedulerDb) (integrationId : String)
    (f : CalendarIntegration → CalendarIntegration) : Except String SchedulerDb :=
  if db.integrations.any fun i => i.id == integrationId then
    .ok { db with integrations := db.integrations.map fun i =>
            if i.id == integrationId then f i else i }
  else
    .error "Record to update not found."

/-- `event.summary || "Untitled Event"` (JS `||`: the empty string is
falsy). -/
def eventTitle (summary : Option String) : String :=
  match summary with
  | none => "Untitled Event"
  | some s => if s == "" then "Untitled Event" else s

/-- The guard in `processSyncEvents`:
`!event.id || !event.start?.dateTime` skips all-day events and events
without an id. -/
def skipEvent (event : GoogleCalendarEvent) : Bool :=
  event.id == "" || event.startDateTime == none

/-- One `calendarEvent.upsert` keyed by
`(calendarIntegrationId, externalEventId)`: update the existing row
(start, end, title, syncedAt) or create one with `isBusy := true`
(`syncedAt` filled by the column default `CURRENT_TIMESTAMP`). -/
def upsertCalendarEvent (now : Int) (integrationId externalEventId : String)
    (startTime endTime : Int) (title : String)
    (events : List CalendarEvent) : List CalendarEvent :=
  if events.any fun e =>
      e.calendarIntegrationId == integrationId && e.externalEventId == externalEventId then
    events.map fun e =>
      if e.calendarIntegrationId == integrationId && e.externalEventId == externalEventId then
        { e with startTime := startTime, endTime := endTime,
                 title := title, syncedAt := now }
      else e
  else
    events ++ [{ calendarIntegrationId := integrationId
                 externalEventId := externalEventId
                 startTime := startTime
                 endTime := endTime
                 title := title
                 isBusy := true
                 syncedAt := now }]

/-- `CalendarSyncService.processSyncEvents`: fold the provider events over
the cache, skipping invalid events and upserting the rest; returns the
count of processed events with the new cache. -/
def processSyncEvents (now : Int) (integrationId : String) :
    List GoogleCalendarEvent → List CalendarEvent → Nat × List CalendarEvent
  | [], events => (0, events)
  | event :: rest, events =>
    if skipEvent event then
      processSyncEvents now integrationId rest events
    else
      let startTime := event.startDateTime.getD 0
      let endTime := event.endDateTime.getD startTime
      let events' := upsertCalendarEvent now integrationId event.id
        startTime endTime (eventTitle event.summary) events
      let processed := processSyncEvents now integrationId rest events'
      (processed.1 + 1, processed.2)

/-- The `catch` block shared by both sync paths: record status `error`
with the message on the integration and return a `SyncResult` with
`hasError`; if that update itself rejects (integration row missing) the
rejection propagates. -/
def syncCatch (now : Int) (integrationId : String) (db : SchedulerDb)
    (errorMessage : String) : Except String (SchedulerDb × SyncResult) :=
  match updateIntegration db integrationId
      (fun i => { i with syncStatus := "error", syncError := some errorMessage }) with
  | .error m => .error m
  | .ok db' =>
    .ok (db', { eventsSynced := 0
                nextSyncToken := none
                lastSyncAt := now
                hasError := true
                errorMessage := some errorMessage })

/-- Success epilogue shared by both sync paths: process the events, then
store the new sync token, `lastSyncAt`, status `active` and a cleared
error on the integration. -/
def syncApply (now : Int) (integrationId : String) (db : SchedulerDb)
    (result : SyncEventsResult) : Except String (SchedulerDb × SyncResult) :=
  let processed := processSyncEvents now integrationId result.events db.calendarEvents
  let eventsSynced := processed.1
  let db1 := { db with calendarEvents := processed.2 }
  match updateIntegration db1 integrationId
      (fun i => { i with syncToken := result.nextSyncToken
                         lastSyncAt := some now
                         syncStatus := "active"
                         syncError := none }) with
  | .error m => syncCatch now integrationId db1 m
  | .ok db2 =>
    .ok (db2, { eventsSynced := eventsSynced
                nextSyncToken := result.nextSyncToken
                lastSyncAt := now
                hasError := false
                errorMessage := none })

/-- `90 * 24 * 60 * 60 * 1000` — the ±90-day window radius in ms. -/
def ninetyDaysMs : Int := 90 * 24 * 60 * 60 * 1000

/-- `CalendarSyncService.performFullSync`: request all events in the
±90-day window around `now` and apply them; any failure is recorded by
the catch block. -/
def performFullSync (provider : CalendarProvider) (now : Int)
    (integrationId : String) (db : SchedulerDb) :
    Except String (SchedulerDb × SyncResult) :=
  match db.integrations.find? fun i => i.id == integrationId with
  | none =>
    syncCatch now integrationId db ("Calendar integration not found: " ++ integrationId)
  | some integration =>
    let timeMin := now - ninetyDaysMs
    let timeMax := now + ninetyDaysMs
    match provider integration.calendarId
        { syncToken := none, timeMin := some timeMin, timeMax := some timeMax } with
    | .error msg => syncCatch now integrationId db msg
    | .ok result => syncApply now integrationId db result

/-- `CalendarSyncService.performIncrementalSync`: with no stored sync
token delegate to `performFullSync`; otherwise request the delta since
the token and apply it; any failure is recorded by the catch block. -/
def performIncrementalSync (provider : CalendarProvider) (now : Int)
    (integrationId : String) (db : SchedulerDb) :
    Except String (SchedulerDb × SyncResult) :=
  match db.integrations.find? fun i => i.id == integrationId with
  | none =>
    syncCatch now integrationId db ("Calendar integration not found: " ++ integrationId)
  | some integration =>
    match integration.syncToken with
    | none => performFullSync provider now integrationId db
    | some token =>
      match provider integration.calendarId
          { syncToken := some token, timeMin := none, timeMax := none } with
      | .error msg => syncCatch now integrationId db msg
      | .ok result => syncApply now integrationId db result

/-- `CalendarSyncService.cleanupOldEvents`: delete cached events whose
start is older than the 90-day retention horizon, scoped to one
integration when an id is given; returns the deleted count. -/
def cleanupOldEvents (now : Int) (integrationId : Option String)
    (db : SchedulerDb) : SchedulerDb × Nat :=
  let cutoffDate := now - ninetyDaysMs
  let shouldDelete := fun (e : CalendarEvent) =>
    match integrationId with
    | some iid => e.calendarIntegrationId == iid && decide (e.startTime < cutoffDate)
    | none => decide (e.startTime < cutoffDate)
  ({ db with calendarEvents := db.calendarEvents.filter fun e => !shouldDelete e },
   (db.calendarEvents.filter shouldDelete).length)

/-! ## Credential Vault (`CalendarAuthService`) -/

/-- The credentials object held by a `googleapis-common` `OAuth2Client`. -/
structure OAuthCredentials where
  access_token : Option String
  refresh_token : Option String
  expiry_date : Option Int
  token_type : Option String
  scope : Option String
deriving DecidableEq, Repr

/-- `new OAuth2Client(client_id, client_secret)` holds no credentials
until `setCredentials` is called. -/
structure OAuth2Client where
  credentials : OAuthCredentials
deriving Repr

/-- `new OAuth2Client(client_id, client_secret)`. -/
def mkOAuth2Client (_clientId _clientSecret : String) : OAuth2Client :=
  ⟨⟨none, none, none, none, none⟩⟩

/-- The external OAuth refresh endpoint behind
`oAuth2Client.refreshAccessToken()`: consumes the credentials held by the
client issuing the call (in particular its `refresh_token`) and returns
fresh credentials or an error.  Taken as a parameter. -/
abbrev RefreshProvider := OAuthCredentials → Except String OAuthCredentials

/-- `CalendarAuthService.refreshTokens`.  `encrypt` / `decrypt` are the
`symmetricEncrypt` / `symmetricDecrypt` helpers (repository code outside
`src/`; modelled as opaque string functions), `encodeTokens` the
`JSON.stringify` of the token blob.  Faithful to the source, the
`OAuth2Client` used for the refresh call is freshly constructed and never
given the decrypted refresh token. -/
def refreshTokens (encrypt decrypt : String → String)
    (encodeTokens : OAuthCredentials → String)
    (refreshProvider : RefreshProvider) (now : Int)
    (integrationId : String) (db : SchedulerDb) : Except String SchedulerDb :=
  match db.integrations.find? fun i => i.id == integrationId with
  | none => .error ("Calendar integration not found: " ++ integrationId)
  | some integration =>
    match integration.refreshToken with
    | none => .error "No refresh token available"
    | some storedRefreshToken =>
      let refreshToken := decrypt storedRefreshToken
      let oAuth2Client := mkOAuth2Client "client_id" "client_secret"
      match refreshProvider oAuth2Client.credentials with
      | .error msg => .error msg
      | .ok newTokens =>
        match newTokens.access_token with
        | none => .error "No access token received from refresh"
        | some _ =>
          let encryptedAccessToken := encrypt (encodeTokens
            { newTokens with
                refresh_token := some (newTokens.refresh_token.getD refreshToken) })
          let encryptedRefreshToken :=
            match newTokens.refresh_token with
            | some rt => some (encrypt rt)
            | none => some storedRefreshToken
          let tokenExpiresAt :=
            match newTokens.expiry_date with
            | some d => d
            | none => now + 3600 * 1000
          match updateIntegration db integrationId
              (fun i => { i with accessToken := encryptedAccessToken
                                 refreshToken := encryptedRefreshToken
                                 tokenExpiresAt := some tokenExpiresAt }) with
          | .error m => .error m
          | .ok db' => .ok db'

/-- `CalendarAuthService.ensureValidToken`: refresh when the stored expiry
is less than 5 minutes away; otherwise leave the state alone. -/
def ensureValidToken (encrypt decrypt : String → String)
    (encodeTokens : OAuthCredentials → String)
    (refreshProvider : RefreshProvider) (now : Int)
    (integrationId : String) (db : SchedulerDb) : Except String SchedulerDb :=
  match db.integrations.find? fun i => i.id == integrationId with
  | none => .error ("Calendar integration not found: " ++ integrationId)
  | some integration =>
    match integration.tokenExpiresAt with
    | none => .ok db
    | some expiresAt =>
      let fiveMinutes : Int := 5 * 60 * 1000
      if expiresAt - now < fiveMinutes then
        refreshTokens encrypt decrypt encodeTokens refreshProvider now integrationId db
      else
        .ok db

/-! ## Helper lemmas -/

/-! ## Concrete inputs for scenarios, witnesses and counterexamples -/

/-- An existing confirmed booking occupying 10:15–10:45 (minutes of the
epoch day, in ms). -/
def confirmedQuarterPast : Booking :=
  { id := 7, uid := "booking-existing", userId := 1
    startTime := 36900000, endTime := 38700000
    title := "existing", description := none, status := .CONFIRMED
    attendeeName := "A", attendeeEmail := "a@example.com"
    videoProvider := none, videoLink := none, calendarEventId := none
    timezone := "UTC" }

/-- A request for 10:00–10:30 on the same day. -/
def tenToTenThirty : CreatePendingBookingInput :=
  { userId := 1, startTime := 36000000, endTime := 37800000
    attendeeName := "B", attendeeEmail := "b@example.com"
    notes := none, videoProvider := none, timezone := "UTC", title := none }

/-- State holding only the confirmed 10:15–10:45 booking. -/
def conflictScenarioDb : SchedulerDb :=
  { availabilityBlocks := [], integrations := [], calendarEvents := []
    bookings := [confirmedQuarterPast], nextBookingId := 8 }

/-- A request whose start instant equals the current time exactly
(`now = 1000`), with a valid 30-minute duration. -/
def startsRightNow : CreatePendingBookingInput :=
  { userId := 1, startTime := 1000, endTime := 1000 + 30 * 60 * 1000
    attendeeName := "B", attendeeEmail := "b@example.com"
    notes := none, videoProvider := none, timezone := "UTC", title := none }

/-- The empty state. -/
def emptyDb : SchedulerDb :=
  { availabilityBlocks := [], integrations := [], calendarEvents := []
    bookings := [], nextBookingId := 1 }

/-- An integration of admin 1 whose sync status is `"error"`. -/
def errorIntegration : CalendarIntegration :=
  { id := "int1", userId := 1, type := "google-calendar"
    accessToken := "enc-at", refreshToken := some "enc-rt"
    tokenExpiresAt := some 7200000, calendarId := "primary"
    syncToken := some "tok0", lastSyncAt := some 0
    syncStatus := "error", syncError := some "boom" }

/-- A cached busy interval of `errorIntegration` covering 10:00–10:30. -/
def busyTenToTenThirty : CalendarEvent :=
  { calendarIntegrationId := "int1", externalEventId := "evt1"
    startTime := 36000000, endTime := 37800000
    title := "busy", isBusy := true, syncedAt := 0 }

/-- State for the C9 witness: the admin has the busy interval cached and
no availability blocks, and no bookings. -/
def busyOnlyDb : SchedulerDb :=
  { availabilityBlocks := [], integrations := [errorIntegration]
    calendarEvents := [busyTenToTenThirty], bookings := [], nextBookingId := 1 }

/-! ## Sync engine lemmas -/

/-- Postcondition of one sync call (shared phrasing for both paths): on
a failed run the cached busy intervals and every stored continuation
token are unmodified and the integration row records status `error` with
the failure message; on a successful run the integration row records
status `active`, a cleared error and the new last-sync time. -/
def syncPost (integrationId : String) (integration : CalendarIntegration)
    (now : Int) (db db' : SchedulerDb) (res : SyncResult) : Prop :=
  (res.hasError = true →
    db'.calendarEvents = db.calendarEvents ∧
    db'.integrations.map (fun i => i.syncToken) =
      db.integrations.map (fun i => i.syncToken) ∧
    ∃ i2, db'.integrations.find? (fun i => i.id == integrationId) = some i2 ∧
      i2.syncStatus = "error" ∧ i2.syncError = res.errorMessage ∧
      i2.syncToken = integration.syncToken) ∧
  (res.hasError = false →
    ∃ i2, db'.integrations.find? (fun i => i.id == integrationId) = some i2 ∧
      i2.syncStatus = "active" ∧ i2.syncError = none ∧ i2.lastSyncAt = some now)

/-- An `active` integration of admin 1 with a stored sync token and an
expiry 2 hours into the epoch. -/
def activeIntegration : CalendarIntegration :=
  { id := "int3"
    userId := 1
    type := "google-calendar"
    accessToken := "enc-at"
    refreshToken := some "enc-rt"
    tokenExpiresAt := some 7200000
    calendarId := "primary"
    syncToken := some "tok3"
    lastSyncAt := some 0
    syncStatus := "active"
    syncError := none }

/-- State holding `activeIntegration` and one cached busy interval. -/
def activeSyncDb : SchedulerDb :=
  { availabilityBlocks := []
    integrations := [activeIntegration]
    calendarEvents := [busyTenToTenThirty]
    bookings := []
    nextBookingId := 1 }

/-- The state after a failed sync against `activeSyncDb`: only the status
and error of the integration row change. -/
def c4FailDb : SchedulerDb :=
  { activeSyncDb with integrations :=
      [{ activeIntegration with syncStatus := "error", syncError := some "boom" }] }

/-- The `SyncResult` of that failed sync. -/
def c4FailRes : SyncResult :=
  { eventsSynced := 0
    nextSyncToken := none
    lastSyncAt := 0
    hasError := true
    errorMessage := some "boom" }

/-- A provider that rejects every sync-token request (as Google does for
an expired token) but fulfils explicit-window requests. -/
def rejectingProvider : CalendarProvider := fun _ opts =>
  match opts.syncToken with
  | some _ => .error "Sync token is no longer valid"
  | none => .ok { events := [], nextSyncToken := some "fresh-token" }

/-- `activeIntegration` without a stored sync token. -/
def tokenlessIntegration : CalendarIntegration :=
  { activeIntegration with syncToken := none }

/-- `activeSyncDb` with the tokenless integration instead. -/
def tokenlessSyncDb : SchedulerDb :=
  { activeSyncDb with integrations := [tokenlessIntegration] }

/-- The OAuth refresh boundary, modelled from the spec (section 4.1:
a missing refresh credential is a fatal, surfaced error): a refresh
request made by a client holding no refresh credential fails; one made
with a credential returns fresh tokens. -/
def honestRefreshProvider : RefreshProvider := fun creds =>
  match creds.refresh_token with
  | none => .error "No refresh token is set."
  | some _ =>
    .ok { access_token := some "new-access"
          refresh_token := some "new-refresh"
          expiry_date := some 7200000
          token_type := none
          scope := none }

/-! ## No-deletion invariant of event processing -/

/-- Every row of `old` still has a row with the same
(integration id, external event id) key in `new`. -/
def keysPreserved (old new : List CalendarEvent) : Prop :=
  ∀ e ∈ old, ∃ e2 ∈ new, e2.calendarIntegrationId = e.calendarIntegrationId ∧
    e2.externalEventId = e.externalEventId

/-- A provider event carrying a key different from the cached row. -/
def otherProviderEvent : GoogleCalendarEvent :=
  { id := "other-evt"
    startDateTime := some 1000
    endDateTime := some 2000
    summary := some "changed" }

/-! ## Slot engine lemmas -/

/-- A concrete clock environment: the server runs in UTC, so the JS
local-time primitives coincide with UTC arithmetic on epoch days
(epoch day 0 is a Thursday, hence the `+ 4`), and `fromZonedTime` on a
UTC block is the identity. -/
def utcClock : ClockModel :=
  { dayOfWeekOf := fun t => (t / 86400000 + 4) % 7
    setTimeOfDay := fun t h m => t / 86400000 * 86400000 + h * 3600000 + m * 60000
    nextDayStart := fun t => (t / 86400000 + 1) * 86400000
    hoursOf := fun t => t % 86400000 / 3600000
    minutesOf := fun t => t % 3600000 / 60000
    fromZonedTime := fun t _ => t
    formatInTimeZone := fun _ _ => "" }

/-- An active availability block of admin 1 for Thursdays 10:00–11:00
UTC (epoch day 0 is a Thursday). -/
def thuBlock : AvailabilityBlock :=
  { id := "blk1"
    userId := 1
    dayOfWeek := 4
    startTime := 36000000
    endTime := 39600000
    timezone := "UTC"
    isActive := true }

/-- State for C3: admin 1 has the Thursday block, an integration in sync
status `"error"`, and a cached busy interval of that integration covering
10:00–10:30 of epoch day 0. -/
def staleBusyDb : SchedulerDb :=
  { availabilityBlocks := [thuBlock]
    integrations := [errorIntegration]
    calendarEvents := [busyTenToTenThirty]
    bookings := []
    nextBookingId := 1 }

/-- For well-formed intervals, the three-clause prisma disjunction of
`createPendingBooking` agrees with the half-open overlap test
`slotsOverlap`. -/
theorem bookingOverlapWhere_iff (b : Booking) (newStart newEnd : Int)
    (hex : b.startTime < b.endTime) (hnew : newStart < newEnd) :
    (bookingOverlapWhere b newStart newEnd = true ↔
      slotsOverlap ⟨newStart, newEnd⟩ ⟨b.startTime, b.endTime⟩ = true) := by
  simp only [bookingOverlapWhere, slotsOverlap, Bool.or_eq_true, Bool.and_eq_true,
    decide_eq_true_eq]
  constructor <;> intro h <;> omega

/-- Success characterization of `createPendingBooking`: when validation
passes and no existing booking matches the conflict query, the call
returns `ok` and appends one new `PENDING` booking with the requested
interval. -/
theorem createPendingBooking_ok_char (now : Int) (rand : String)
    (input : CreatePendingBookingInput) (db : SchedulerDb)
    (hmin : minDuration ≤ input.endTime - input.startTime)
    (hmax : input.endTime - input.startTime ≤ maxDuration)
    (hfuture : ¬ input.startTime < now)
    (hnoconf : db.bookings.find?
      (overlappingBookingWhere input.userId input.startTime input.endTime) = none) :
    ∃ b, createPendingBooking now rand input db =
        .ok ({ db with bookings := db.bookings ++ [b],
                       nextBookingId := db.nextBookingId + 1 }, b) ∧
      b.status = BookingStatus.PENDING ∧ b.userId = input.userId ∧
      b.startTime = input.startTime ∧ b.endTime = input.endTime := by
  have h1 : ¬ (input.endTime - input.startTime < minDuration) := by omega
  have h2 : ¬ (input.endTime - input.startTime > maxDuration) := by omega
  simp only [createPendingBooking, if_neg h1, if_neg h2, if_neg hfuture, hnoconf]
  exact ⟨_, rfl, rfl, rfl, rfl, rfl⟩

/-- Error characterization of `createPendingBooking`: when validation
passes and some existing booking matches the conflict query, the call
aborts with a `CONFLICT` error. -/
theorem createPendingBooking_conflict_char (now : Int) (rand : String)
    (input : CreatePendingBookingInput) (db : SchedulerDb)
    (hmin : minDuration ≤ input.endTime - input.startTime)
    (hmax : input.endTime - input.startTime ≤ maxDuration)
    (hfuture : ¬ input.startTime < now) (m : Booking)
    (hconf : db.bookings.find?
      (overlappingBookingWhere input.userId input.startTime input.endTime) = some m) :
    createPendingBooking now rand input db =
      .error ⟨.CONFLICT, "Time slot is no longer available"⟩ := by
  have h1 : ¬ (input.endTime - input.startTime < minDuration) := by omega
  have h2 : ¬ (input.endTime - input.startTime > maxDuration) := by omega
  simp only [createPendingBooking, if_neg h1, if_neg h2, if_neg hfuture, hconf]

/-- C2 claim theorem: for well-formed intervals, the three-clause
disjunction used by `createPendingBooking` detects exactly the half-open
overlaps (the `slotsOverlap` test of the slot engine); consequently, for
a validation-passing request, `createPendingBooking` aborts with a
`CONFLICT` error exactly when some existing booking of the same admin in
status pending or confirmed half-open-overlaps the requested interval;
and in particular a request for 10:00–10:30 conflicts with a confirmed
booking at 10:15–10:45. -/
theorem overlap_clause_equiv_conflict (b : Booking) (newStart newEnd : Int)
    (hex : b.startTime < b.endTime) (hnew : newStart < newEnd)
    (now : Int) (rand : String) (input : CreatePendingBookingInput)
    (db : SchedulerDb)
    (hmin : minDuration ≤ input.endTime - input.startTime)
    (hmax : input.endTime - input.startTime ≤ maxDuration)
    (hfuture : ¬ input.startTime < now)
    (hwf : ∀ b0 ∈ db.bookings, b0.startTime < b0.endTime) :
    (bookingOverlapWhere b newStart newEnd = true ↔
      slotsOverlap ⟨newStart, newEnd⟩ ⟨b.startTime, b.endTime⟩ = true) ∧
    ((∃ err, createPendingBooking now rand input db = .error err ∧
        err.code = TrpcCode.CONFLICT) ↔
      ∃ b0 ∈ db.bookings, b0.userId = input.userId ∧
        (b0.status = BookingStatus.PENDING ∨ b0.status = BookingStatus.CONFIRMED) ∧
        slotsOverlap ⟨input.startTime, input.endTime⟩ ⟨b0.startTime, b0.endTime⟩ = true) ∧
    (∃ err, createPendingBooking 0 "r" tenToTenThirty conflictScenarioDb = .error err ∧
        err.code = TrpcCode.CONFLICT) := by
  have hinput : input.startTime < input.endTime := by
    have : (0 : Int) < minDuration := by decide
    omega
  refine ⟨bookingOverlapWhere_iff b newStart newEnd hex hnew, ?_, ?_⟩
  · constructor
    · rintro ⟨err, herr, hcode⟩
      match hfind : db.bookings.find?
          (overlappingBookingWhere input.userId input.startTime input.endTime) with
      | none =>
        obtain ⟨b1, hok, -⟩ :=
          createPendingBooking_ok_char now rand input db hmin hmax hfuture hfind
        rw [hok] at herr
        exact absurd herr (by simp)
      | some m =>
        have hmem := List.mem_of_find?_eq_some hfind
        have hp : overlappingBookingWhere input.userId input.startTime
            input.endTime m = true := List.find?_some hfind
        simp only [overlappingBookingWhere, Bool.and_eq_true, Bool.or_eq_true,
          beq_iff_eq] at hp
        refine ⟨m, hmem, hp.1.1, hp.1.2, ?_⟩
        exact (bookingOverlapWhere_iff m input.startTime input.endTime
          (hwf m hmem) hinput).mp hp.2
    · rintro ⟨b0, hmem, huid, hstatus, hover⟩
      match hfind : db.bookings.find?
          (overlappingBookingWhere input.userId input.startTime input.endTime) with
      | none =>
        exfalso
        have := List.find?_eq_none.mp hfind b0 hmem
        apply this
        simp only [overlappingBookingWhere, Bool.and_eq_true, Bool.or_eq_true,
          beq_iff_eq]
        refine ⟨⟨huid, hstatus⟩, ?_⟩
        exact (bookingOverlapWhere_iff b0 input.startTime input.endTime
          (hwf b0 hmem) hinput).mpr hover
      | some m =>
        exact ⟨_, createPendingBooking_conflict_char now rand input db
          hmin hmax hfuture m hfind, rfl⟩
  · exact ⟨⟨.CONFLICT, "Time slot is no longer available"⟩, rfl, rfl⟩

/-- Witness for `overlap_clause_equiv_conflict` at concrete inputs. -/
theorem overlap_clause_equiv_conflict_witness :
    (bookingOverlapWhere confirmedQuarterPast 36000000 37800000 = true ↔
      slotsOverlap ⟨36000000, 37800000⟩
        ⟨confirmedQuarterPast.startTime, confirmedQuarterPast.endTime⟩ = true) ∧
    ((∃ err, createPendingBooking 0 "r" tenToTenThirty conflictScenarioDb = .error err ∧
        err.code = TrpcCode.CONFLICT) ↔
      ∃ b0 ∈ conflictScenarioDb.bookings, b0.userId = tenToTenThirty.userId ∧
        (b0.status = BookingStatus.PENDING ∨ b0.status = BookingStatus.CONFIRMED) ∧
        slotsOverlap ⟨tenToTenThirty.startTime, tenToTenThirty.endTime⟩
          ⟨b0.startTime, b0.endTime⟩ = true) := by
  have h := overlap_clause_equiv_conflict confirmedQuarterPast 36000000 37800000
    (by decide) (by decide) 0 "r" tenToTenThirty conflictScenarioDb
    (by decide) (by decide) (by decide)
    (by intro b0 hb0; simp only [conflictScenarioDb, List.mem_singleton] at hb0;
        rw [hb0]; decide)
  exact ⟨h.1, h.2.1⟩

/-- C6 counterexample: a request whose start is not strictly in the
future — it equals `now` exactly — is accepted and inserted, because the
source only rejects `startTime < new Date()`. -/
theorem createPendingBooking_start_eq_now_cex :
    startsRightNow.startTime = 1000 ∧
    ∃ db' b, createPendingBooking 1000 "r" startsRightNow emptyDb = .ok (db', b) ∧
      db'.bookings = [b] ∧ b.status = BookingStatus.PENDING :=
  ⟨rfl, _, _, rfl, rfl, rfl⟩

/-- C6 claim theorem (amended): a request whose start instant is strictly
before the current time is rejected with a `BAD_REQUEST` (Validation)
error before the transaction, and no state is produced. -/
theorem createPendingBooking_past_start_rejected (now : Int) (rand : String)
    (input : CreatePendingBookingInput) (db : SchedulerDb)
    (hpast : input.startTime < now) :
    ∃ err, createPendingBooking now rand input db = .error err ∧
      err.code = TrpcCode.BAD_REQUEST := by
  unfold createPendingBooking
  by_cases h1 : input.endTime - input.startTime < minDuration
  · exact ⟨_, by rw [if_pos h1], rfl⟩
  · by_cases h2 : input.endTime - input.startTime > maxDuration
    · exact ⟨_, by rw [if_neg h1, if_pos h2], rfl⟩
    · exact ⟨_, by rw [if_neg h1, if_neg h2, if_pos hpast], rfl⟩

/-- Witness for `createPendingBooking_past_start_rejected`: a request
starting one millisecond in the past. -/
theorem createPendingBooking_past_start_rejected_witness :
    ∃ err, createPendingBooking 1001 "r" startsRightNow emptyDb = .error err ∧
      err.code = TrpcCode.BAD_REQUEST :=
  createPendingBooking_past_start_rejected 1001 "r" startsRightNow emptyDb (by decide)

/-- C7 claim theorem: with a future start and no conflicting booking, a
duration of exactly 15 minutes is accepted and a duration of exactly
8 hours is accepted; any duration below 15 minutes or above 8 hours is
rejected with a `BAD_REQUEST` (Validation) error. -/
theorem createPendingBooking_duration_bounds (now : Int) (rand : String)
    (input : CreatePendingBookingInput) (db : SchedulerDb)
    (hfuture : ¬ input.startTime < now)
    (hnoconf : db.bookings.find?
      (overlappingBookingWhere input.userId input.startTime input.endTime) = none) :
    (input.endTime - input.startTime = 15 * 60 * 1000 →
      ∃ st, createPendingBooking now rand input db = .ok st) ∧
    (input.endTime - input.startTime = 8 * 60 * 60 * 1000 →
      ∃ st, createPendingBooking now rand input db = .ok st) ∧
    (input.endTime - input.startTime < 15 * 60 * 1000 →
      ∃ err, createPendingBooking now rand input db = .error err ∧
        err.code = TrpcCode.BAD_REQUEST) ∧
    (input.endTime - input.startTime > 8 * 60 * 60 * 1000 →
      ∃ err, createPendingBooking now rand input db = .error err ∧
        err.code = TrpcCode.BAD_REQUEST) := by
  refine ⟨?_, ?_, ?_, ?_⟩
  · intro hdur
    obtain ⟨b, hok, -⟩ := createPendingBooking_ok_char now rand input db
      (by rw [hdur]; decide) (by rw [hdur]; decide) hfuture hnoconf
    exact ⟨_, hok⟩
  · intro hdur
    obtain ⟨b, hok, -⟩ := createPendingBooking_ok_char now rand input db
      (by rw [hdur]; decide) (by rw [hdur]; decide) hfuture hnoconf
    exact ⟨_, hok⟩
  · intro hdur
    refine ⟨⟨.BAD_REQUEST, "Booking duration must be at least 15 minutes"⟩, ?_, rfl⟩
    unfold createPendingBooking
    rw [if_pos (show input.endTime - input.startTime < minDuration from hdur)]
  · intro hdur
    have h1 : ¬ (input.endTime - input.startTime < minDuration) := by
      simp only [minDuration, maxDuration] at *
      omega
    refine ⟨⟨.BAD_REQUEST, "Booking duration cannot exceed 8 hours"⟩, ?_, rfl⟩
    unfold createPendingBooking
    rw [if_neg h1, if_pos (show input.endTime - input.startTime > maxDuration from hdur)]

/-- Witness for `createPendingBooking_duration_bounds`: the boundary
scenarios at concrete instants — exactly 15 minutes (accepted), exactly
8 hours (accepted), 14 minutes 59 seconds (rejected), 8 hours 1 second
(rejected). -/
theorem createPendingBooking_duration_bounds_witness :
    (∃ st, createPendingBooking 0 "r"
      { startsRightNow with startTime := 1000, endTime := 1000 + 15 * 60 * 1000 }
      emptyDb = .ok st) ∧
    (∃ st, createPendingBooking 0 "r"
      { startsRightNow with startTime := 1000, endTime := 1000 + 8 * 60 * 60 * 1000 }
      emptyDb = .ok st) ∧
    (∃ err, createPendingBooking 0 "r"
      { startsRightNow with startTime := 1000, endTime := 1000 + 899000 }
      emptyDb = .error err ∧ err.code = TrpcCode.BAD_REQUEST) ∧
    (∃ err, createPendingBooking 0 "r"
      { startsRightNow with startTime := 1000, endTime := 1000 + 28801000 }
      emptyDb = .error err ∧ err.code = TrpcCode.BAD_REQUEST) := by
  refine ⟨?_, ?_, ?_, ?_⟩
  · exact (createPendingBooking_duration_bounds 0 "r" _ emptyDb (by decide) rfl).1
      (by decide)
  · exact (createPendingBooking_duration_bounds 0 "r" _ emptyDb (by decide) rfl).2.1
      (by decide)
  · exact (createPendingBooking_duration_bounds 0 "r" _ emptyDb (by decide) rfl).2.2.1
      (by decide)
  · exact (createPendingBooking_duration_bounds 0 "r" _ emptyDb (by decide) rfl).2.2.2
      (by decide)

/-- C9 claim theorem: `createPendingBooking` checks the requested
interval only against existing bookings of the same admin in status
pending or confirmed.  A validation-passing request that half-open-
overlaps a cached busy interval of the admin, while the admin has no
availability blocks at all, is still accepted and inserted as a pending
booking whenever it overlaps no such booking. -/
theorem createPendingBooking_ignores_busy_and_blocks (now : Int) (rand : String)
    (input : CreatePendingBookingInput) (db : SchedulerDb)
    (hmin : minDuration ≤ input.endTime - input.startTime)
    (hmax : input.endTime - input.startTime ≤ maxDuration)
    (hfuture : ¬ input.startTime < now)
    (hnoBookingConflict : ∀ b ∈ db.bookings,
      overlappingBookingWhere input.userId input.startTime input.endTime b = false)
    (_hbusyOverlap : ∃ i ∈ db.integrations, i.userId = input.userId ∧
      ∃ e ∈ db.calendarEvents, e.calendarIntegrationId = i.id ∧ e.isBusy = true ∧
        slotsOverlap ⟨input.startTime, input.endTime⟩ ⟨e.startTime, e.endTime⟩ = true)
    (_hnoblocks : db.availabilityBlocks = []) :
    ∃ b, createPendingBooking now rand input db =
        .ok ({ db with bookings := db.bookings ++ [b],
                       nextBookingId := db.nextBookingId + 1 }, b) ∧
      b.status = BookingStatus.PENDING := by
  have hfind : db.bookings.find?
      (overlappingBookingWhere input.userId input.startTime input.endTime) = none := by
    refine List.find?_eq_none.mpr fun x hx => ?_
    rw [hnoBookingConflict x hx]
    exact Bool.false_ne_true
  obtain ⟨b, hok, hstatus, -⟩ :=
    createPendingBooking_ok_char now rand input db hmin hmax hfuture hfind
  exact ⟨b, hok, hstatus⟩

/-- Witness for `createPendingBooking_ignores_busy_and_blocks`: the
10:00–10:30 request is accepted although a cached busy interval covers
exactly 10:00–10:30 and the admin has no availability blocks. -/
theorem createPendingBooking_ignores_busy_and_blocks_witness :
    ∃ b, createPendingBooking 0 "r" tenToTenThirty busyOnlyDb =
        .ok ({ busyOnlyDb with bookings := busyOnlyDb.bookings ++ [b],
                               nextBookingId := busyOnlyDb.nextBookingId + 1 }, b) ∧
      b.status = BookingStatus.PENDING :=
  createPendingBooking_ignores_busy_and_blocks 0 "r" tenToTenThirty busyOnlyDb
    (by decide) (by decide) (by decide)
    (by intro b hb; simp only [busyOnlyDb, List.not_mem_nil] at hb)
    (by decide) rfl

/-- If `find?` by id succeeds, the prisma `any` guard of
`updateIntegration` holds. -/
theorem any_id_of_find? (l : List CalendarIntegration) (pid : String)
    (integ : CalendarIntegration)
    (h : l.find? (fun i => i.id == pid) = some integ) :
    l.any (fun i => i.id == pid) = true := by
  have hm := List.mem_of_find?_eq_some h
  have hp := List.find?_some h
  exact List.any_eq_true.mpr ⟨integ, hm, hp⟩

/-- `updateIntegration` on a present row maps that row. -/
theorem updateIntegration_ok (db : SchedulerDb) (pid : String)
    (f : CalendarIntegration → CalendarIntegration)
    (h : db.integrations.any (fun i => i.id == pid) = true) :
    updateIntegration db pid f =
      .ok { db with integrations := db.integrations.map (fun i =>
              if i.id == pid then f i else i) } := by
  unfold updateIntegration
  rw [if_pos h]

/-- An id-preserving per-row update keeps `find?` by id pointing at the
updated image of the found row. -/
theorem find?_id_update (l : List CalendarIntegration) (pid : String)
    (f : CalendarIntegration → CalendarIntegration)
    (hf : ∀ i, (f i).id = i.id) (integ : CalendarIntegration)
    (hfind : l.find? (fun i => i.id == pid) = some integ) :
    (l.map (fun i => if i.id == pid then f i else i)).find?
        (fun i => i.id == pid) = some (f integ) := by
  induction l with
  | nil => simp at hfind
  | cons a t ih =>
    cases ha : (a.id == pid) with
    | true =>
      simp only [List.find?_cons, ha] at hfind
      injection hfind with h1
      subst h1
      have hga : (if (a.id == pid) = true then f a else a) = f a := if_pos ha
      have hpa : ((f a).id == pid) = true := by rw [hf a]; exact ha
      rw [List.map_cons, hga, List.find?_cons, hpa]
    | false =>
      simp only [List.find?_cons, ha] at hfind
      have hga : (if (a.id == pid) = true then f a else a) = a :=
        if_neg (by simp [ha])
      rw [List.map_cons, hga, List.find?_cons, ha]
      exact ih hfind

/-- A per-row update that does not touch `syncToken` leaves the stored
tokens of every integration unmodified. -/
theorem map_syncToken_update (l : List CalendarIntegration) (pid : String)
    (f : CalendarIntegration → CalendarIntegration)
    (hf : ∀ i, (f i).syncToken = i.syncToken) :
    (l.map (fun i => if i.id == pid then f i else i)).map (fun i => i.syncToken) =
      l.map (fun i => i.syncToken) := by
  rw [List.map_map]
  apply List.map_congr_left
  intro a _
  by_cases h : (a.id == pid) = true
  · simp only [Function.comp_apply, if_pos h, hf]
  · simp only [Function.comp_apply, if_neg h]

/-- Evaluation of the shared catch block when the integration row
exists. -/
theorem syncCatch_eq (now : Int) (integrationId : String) (db : SchedulerDb)
    (msg : String)
    (hany : db.integrations.any (fun i => i.id == integrationId) = true) :
    syncCatch now integrationId db msg =
      .ok ({ db with integrations := db.integrations.map fun i =>
               if i.id == integrationId then
                 { i with syncStatus := "error", syncError := some msg } else i },
           { eventsSynced := 0, nextSyncToken := none, lastSyncAt := now,
             hasError := true, errorMessage := some msg }) := by
  unfold syncCatch
  rw [updateIntegration_ok db integrationId
    (fun i => { i with syncStatus := "error", syncError := some msg }) hany]

/-- Evaluation of the shared success epilogue when the integration row
exists. -/
theorem syncApply_eq (now : Int) (integrationId : String) (db : SchedulerDb)
    (result : SyncEventsResult)
    (hany : db.integrations.any (fun i => i.id == integrationId) = true) :
    syncApply now integrationId db result =
      .ok ({ db with
               calendarEvents :=
                 (processSyncEvents now integrationId result.events db.calendarEvents).2,
               integrations := db.integrations.map fun i =>
                 if i.id == integrationId then
                   { i with syncToken := result.nextSyncToken, lastSyncAt := some now,
                            syncStatus := "active", syncError := none } else i },
           { eventsSynced :=
               (processSyncEvents now integrationId result.events db.calendarEvents).1,
             nextSyncToken := result.nextSyncToken, lastSyncAt := now,
             hasError := false, errorMessage := none }) := by
  simp only [syncApply]
  rw [updateIntegration_ok
    { db with calendarEvents :=
        (processSyncEvents now integrationId result.events db.calendarEvents).2 }
    integrationId
    (fun i => { i with syncToken := result.nextSyncToken, lastSyncAt := some now,
                       syncStatus := "active", syncError := none }) hany]

/-- The catch block satisfies the failure half of the postcondition. -/
theorem syncCatch_post (now : Int) (integrationId : String) (db : SchedulerDb)
    (msg : String) (integration : CalendarIntegration)
    (hfound : db.integrations.find? (fun i => i.id == integrationId) = some integration)
    (db' : SchedulerDb) (res : SyncResult)
    (h : syncCatch now integrationId db msg = .ok (db', res)) :
    syncPost integrationId integration now db db' res := by
  rw [syncCatch_eq now integrationId db msg
    (any_id_of_find? db.integrations integrationId integration hfound)] at h
  injection h with h1
  injection h1 with hdb hres
  subst hdb
  subst hres
  constructor
  · intro _
    refine ⟨rfl, map_syncToken_update db.integrations integrationId _ (fun i => rfl), ?_⟩
    exact ⟨{ integration with syncStatus := "error", syncError := some msg },
      find?_id_update db.integrations integrationId
        (fun i => { i with syncStatus := "error", syncError := some msg })
        (fun i => rfl) integration hfound, rfl, rfl, rfl⟩
  · intro hfe
    simp at hfe

/-- The success epilogue satisfies the success half of the
postcondition. -/
theorem syncApply_post (now : Int) (integrationId : String) (db : SchedulerDb)
    (result : SyncEventsResult) (integration : CalendarIntegration)
    (hfound : db.integrations.find? (fun i => i.id == integrationId) = some integration)
    (db' : SchedulerDb) (res : SyncResult)
    (h : syncApply now integrationId db result = .ok (db', res)) :
    syncPost integrationId integration now db db' res := by
  rw [syncApply_eq now integrationId db result
    (any_id_of_find? db.integrations integrationId integration hfound)] at h
  injection h with h1
  injection h1 with hdb hres
  subst hdb
  subst hres
  constructor
  · intro hfe
    simp at hfe
  · intro _
    exact ⟨{ integration with
               syncToken := result.nextSyncToken
               lastSyncAt := some now
               syncStatus := "active"
               syncError := none },
      find?_id_update db.integrations integrationId
        (fun i => { i with
                      syncToken := result.nextSyncToken
                      lastSyncAt := some now
                      syncStatus := "active"
                      syncError := none })
        (fun i => rfl) integration hfound, rfl, rfl, rfl⟩

/-- C4 claim theorem: for both `performFullSync` and
`performIncrementalSync` on an existing integration, a failed run leaves
the cached busy intervals and every stored continuation token
unmodified and records status `error` with the failure message, while a
successful run records status `active`, clears the stored error and
updates the last-sync time. -/
theorem sync_failure_success_effects (provider : CalendarProvider) (now : Int)
    (integrationId : String) (db : SchedulerDb) (integration : CalendarIntegration)
    (hfound : db.integrations.find? (fun i => i.id == integrationId) = some integration) :
    (∀ db' res, performFullSync provider now integrationId db = .ok (db', res) →
      syncPost integrationId integration now db db' res) ∧
    (∀ db' res, performIncrementalSync provider now integrationId db = .ok (db', res) →
      syncPost integrationId integration now db db' res) := by
  have hfull : ∀ db' res,
      performFullSync provider now integrationId db = .ok (db', res) →
      syncPost integrationId integration now db db' res := by
    intro db' res h
    simp only [performFullSync, hfound] at h
    cases hp : provider integration.calendarId
        { syncToken := none, timeMin := some (now - ninetyDaysMs),
          timeMax := some (now + ninetyDaysMs) } with
    | error msg =>
      rw [hp] at h
      exact syncCatch_post now integrationId db msg integration hfound db' res h
    | ok result =>
      rw [hp] at h
      exact syncApply_post now integrationId db result integration hfound db' res h
  refine ⟨hfull, ?_⟩
  intro db' res h
  cases ht : integration.syncToken with
  | none =>
    simp only [performIncrementalSync, hfound, ht] at h
    exact hfull db' res h
  | some token =>
    simp only [performIncrementalSync, hfound, ht] at h
    cases hp : provider integration.calendarId
        { syncToken := some token, timeMin := none, timeMax := none } with
    | error msg =>
      rw [hp] at h
      exact syncCatch_post now integrationId db msg integration hfound db' res h
    | ok result =>
      rw [hp] at h
      exact syncApply_post now integrationId db result integration hfound db' res h

/-- Witness for `sync_failure_success_effects`: a provider that always
fails, run against `activeSyncDb`. -/
theorem sync_failure_success_effects_witness :
    syncPost "int3" activeIntegration 0 activeSyncDb c4FailDb c4FailRes :=
  (sync_failure_success_effects (fun _ _ => .error "boom") 0 "int3" activeSyncDb
    activeIntegration rfl).1 c4FailDb c4FailRes rfl

/-- C5 theorem (evaluating the code at the failing input): when the
provider rejects the stored sync token, `performIncrementalSync` merely
records status `error` and returns a failed result — the stored token is
kept and no fall back to `performFullSync` happens — although the same
provider would satisfy a full ±90-day-window request (third conjunct),
and although with no stored token the delegation to `performFullSync`
does happen (second conjunct). -/
theorem incrementalSync_token_rejected_no_fallback_cex :
    (performIncrementalSync rejectingProvider 0 "int3" activeSyncDb =
      .ok ({ activeSyncDb with integrations :=
               [{ activeIntegration with
                    syncStatus := "error"
                    syncError := some "Sync token is no longer valid" }] },
           { eventsSynced := 0
             nextSyncToken := none
             lastSyncAt := 0
             hasError := true
             errorMessage := some "Sync token is no longer valid" })) ∧
    (performIncrementalSync rejectingProvider 0 "int3" tokenlessSyncDb =
      performFullSync rejectingProvider 0 "int3" tokenlessSyncDb) ∧
    (∃ db' res, performFullSync rejectingProvider 0 "int3" activeSyncDb =
      .ok (db', res) ∧ res.hasError = false) :=
  ⟨rfl, rfl, _, _, rfl, rfl⟩

/-- C8 theorem (evaluating the code at the failing input): with the
stored expiry 200 seconds away (inside the 5-minute window) and a stored
refresh credential present, `ensureValidToken` invokes the refresh, but
`refreshTokens` constructs a fresh OAuth client without installing the
decrypted refresh credential, so the refresh request carries no
credential and the call surfaces the provider error instead of
refreshing.  The second conjunct shows the same provider succeeds when
handed the stored credential, so the failure is caused solely by the
missing `setCredentials`. -/
theorem ensureValidToken_refresh_loses_credential_cex :
    (ensureValidToken id id (fun _ => "json-blob") honestRefreshProvider
      7000000 "int3" activeSyncDb = .error "No refresh token is set.") ∧
    (honestRefreshProvider
      { access_token := none
        refresh_token := some "enc-rt"
        expiry_date := none
        token_type := none
        scope := none } =
      .ok { access_token := some "new-access"
            refresh_token := some "new-refresh"
            expiry_date := some 7200000
            token_type := none
            scope := none }) :=
  ⟨rfl, rfl⟩

theorem keysPreserved_refl (l : List CalendarEvent) : keysPreserved l l :=
  fun e he => ⟨e, he, rfl, rfl⟩

theorem keysPreserved_trans {l1 l2 l3 : List CalendarEvent}
    (h12 : keysPreserved l1 l2) (h23 : keysPreserved l2 l3) :
    keysPreserved l1 l3 := by
  intro e he
  obtain ⟨e2, he2, hc2, hx2⟩ := h12 e he
  obtain ⟨e3, he3, hc3, hx3⟩ := h23 e2 he2
  exact ⟨e3, he3, hc3.trans hc2, hx3.trans hx2⟩

/-- One upsert never drops a key: it maps rows (the update touches only
start, end, title and syncedAt) or appends a new row. -/
theorem upsertCalendarEvent_keysPreserved (now : Int)
    (integrationId externalEventId : String) (startTime endTime : Int)
    (title : String) (events : List CalendarEvent) :
    keysPreserved events
      (upsertCalendarEvent now integrationId externalEventId
        startTime endTime title events) := by
  unfold upsertCalendarEvent
  by_cases hc : (events.any fun e =>
      e.calendarIntegrationId == integrationId &&
      e.externalEventId == externalEventId) = true
  · rw [if_pos hc]
    intro e he
    refine ⟨_, List.mem_map_of_mem _ he, ?_, ?_⟩ <;>
      by_cases h : (e.calendarIntegrationId == integrationId &&
          e.externalEventId == externalEventId) = true <;>
      simp [h]
  · rw [if_neg hc]
    intro e he
    exact ⟨e, List.mem_append_left _ he, rfl, rfl⟩

/-- A row whose key no valid incoming event carries is left unchanged by
one upsert for a different key. -/
theorem upsertCalendarEvent_untouched (now : Int)
    (integrationId externalEventId : String) (startTime endTime : Int)
    (title : String) (events : List CalendarEvent) (e : CalendarEvent)
    (he : e ∈ events)
    (hne : ¬ (e.calendarIntegrationId = integrationId ∧
      e.externalEventId = externalEventId)) :
    e ∈ upsertCalendarEvent now integrationId externalEventId
      startTime endTime title events := by
  have hcond : (e.calendarIntegrationId == integrationId &&
      e.externalEventId == externalEventId) = false := by
    rw [Bool.and_eq_false_iff]
    by_cases h1 : e.calendarIntegrationId = integrationId
    · right
      refine beq_eq_false_iff_ne.mpr fun h2 => hne ⟨h1, h2⟩
    · left
      exact beq_eq_false_iff_ne.mpr h1
  unfold upsertCalendarEvent
  by_cases hc : (events.any fun e2 =>
      e2.calendarIntegrationId == integrationId &&
      e2.externalEventId == externalEventId) = true
  · rw [if_pos hc]
    have : (if (e.calendarIntegrationId == integrationId &&
        e.externalEventId == externalEventId) = true then
        { e with startTime := startTime, endTime := endTime,
                 title := title, syncedAt := now } else e) = e := by
      rw [if_neg]
      simp [hcond]
    exact this ▸ List.mem_map_of_mem _ he
  · rw [if_neg hc]
    exact List.mem_append_left _ he

/-- `processSyncEvents` never drops a key from the cache. -/
theorem processSyncEvents_keysPreserved (now : Int) (integrationId : String)
    (events : List GoogleCalendarEvent) (cache : List CalendarEvent) :
    keysPreserved cache (processSyncEvents now integrationId events cache).2 := by
  induction events generalizing cache with
  | nil => exact keysPreserved_refl cache
  | cons ev rest ih =>
    by_cases hs : skipEvent ev = true
    · simp only [processSyncEvents, hs, if_true]
      exact ih cache
    · simp only [processSyncEvents, hs, if_false, Bool.false_eq_true]
      exact keysPreserved_trans
        (upsertCalendarEvent_keysPreserved now integrationId ev.id
          (ev.startDateTime.getD 0)
          (ev.endDateTime.getD (ev.startDateTime.getD 0))
          (eventTitle ev.summary) cache)
        (ih _)

/-- `processSyncEvents` behaves exactly as if the skipped events (no id
or no concrete start date-time) had been filtered out. -/
theorem processSyncEvents_skip_filter (now : Int) (integrationId : String)
    (events : List GoogleCalendarEvent) (cache : List CalendarEvent) :
    processSyncEvents now integrationId events cache =
      processSyncEvents now integrationId
        (events.filter fun ev => !skipEvent ev) cache := by
  induction events generalizing cache with
  | nil => rfl
  | cons ev rest ih =>
    by_cases hs : skipEvent ev = true
    · simp only [processSyncEvents, hs, if_true, List.filter_cons, Bool.not_eq_eq_eq_not,
        Bool.not_true, if_false, Bool.false_eq_true]
      rw [← ih]
    · simp only [List.filter_cons]
      have hs2 : (!skipEvent ev) = true := by simp [Bool.eq_false_iff.mpr hs]
      rw [if_pos hs2]
      simp only [processSyncEvents, hs, if_false, Bool.false_eq_true]
      rw [ih]

/-- A cached row whose key no incoming valid event carries survives
`processSyncEvents` unchanged. -/
theorem processSyncEvents_untouched (now : Int) (integrationId : String)
    (events : List GoogleCalendarEvent) (cache : List CalendarEvent)
    (e : CalendarEvent) (he : e ∈ cache)
    (hkey : ∀ ev ∈ events, skipEvent ev = false →
      ¬ (e.calendarIntegrationId = integrationId ∧ e.externalEventId = ev.id)) :
    e ∈ (processSyncEvents now integrationId events cache).2 := by
  induction events generalizing cache with
  | nil => exact he
  | cons ev rest ih =>
    by_cases hs : skipEvent ev = true
    · simp only [processSyncEvents, hs, if_true]
      exact ih cache he fun ev2 hev2 => hkey ev2 (List.mem_cons_of_mem ev hev2)
    · simp only [processSyncEvents, hs, if_false, Bool.false_eq_true]
      refine ih _ ?_ fun ev2 hev2 => hkey ev2 (List.mem_cons_of_mem ev hev2)
      exact upsertCalendarEvent_untouched now integrationId ev.id
        (ev.startDateTime.getD 0)
        (ev.endDateTime.getD (ev.startDateTime.getD 0))
        (eventTitle ev.summary) cache e he
        (hkey ev (List.mem_cons_self ev rest) (Bool.eq_false_iff.mpr hs))

/-- A successful return of the catch block leaves the cached events
untouched. -/
theorem syncCatch_ok_calendarEvents (now : Int) (integrationId : String)
    (db : SchedulerDb) (msg : String) (db' : SchedulerDb) (res : SyncResult)
    (h : syncCatch now integrationId db msg = .ok (db', res)) :
    db'.calendarEvents = db.calendarEvents := by
  unfold syncCatch updateIntegration at h
  by_cases hc : (db.integrations.any fun i => i.id == integrationId) = true
  · rw [if_pos hc] at h
    injection h with h1
    injection h1 with hdb hres
    subst hdb
    rfl
  · rw [if_neg hc] at h
    exact Except.noConfusion h

/-- A successful return of the success epilogue carries exactly the
processed event cache. -/
theorem syncApply_ok_calendarEvents (now : Int) (integrationId : String)
    (db : SchedulerDb) (result : SyncEventsResult) (db' : SchedulerDb)
    (res : SyncResult)
    (h : syncApply now integrationId db result = .ok (db', res)) :
    db'.calendarEvents =
      (processSyncEvents now integrationId result.events db.calendarEvents).2 := by
  simp only [syncApply, updateIntegration] at h
  by_cases hc : (db.integrations.any fun i => i.id == integrationId) = true
  · rw [if_pos hc] at h
    injection h with h1
    injection h1 with hdb hres
    subst hdb
    rfl
  · rw [if_neg hc] at h
    exact syncCatch_ok_calendarEvents now integrationId _ _ db' res h

/-- `performFullSync` never drops a cached key. -/
theorem performFullSync_keysPreserved (provider : CalendarProvider) (now : Int)
    (integrationId : String) (db db' : SchedulerDb) (res : SyncResult)
    (h : performFullSync provider now integrationId db = .ok (db', res)) :
    keysPreserved db.calendarEvents db'.calendarEvents := by
  cases hfind : db.integrations.find? (fun i => i.id == integrationId) with
  | none =>
    simp only [performFullSync, hfind] at h
    rw [syncCatch_ok_calendarEvents now integrationId db _ db' res h]
    exact keysPreserved_refl _
  | some integration =>
    simp only [performFullSync, hfind] at h
    cases hp : provider integration.calendarId
        { syncToken := none, timeMin := some (now - ninetyDaysMs),
          timeMax := some (now + ninetyDaysMs) } with
    | error msg =>
      rw [hp] at h
      rw [syncCatch_ok_calendarEvents now integrationId db msg db' res h]
      exact keysPreserved_refl _
    | ok result =>
      rw [hp] at h
      rw [syncApply_ok_calendarEvents now integrationId db result db' res h]
      exact processSyncEvents_keysPreserved now integrationId result.events
        db.calendarEvents

/-- `performIncrementalSync` never drops a cached key. -/
theorem performIncrementalSync_keysPreserved (provider : CalendarProvider)
    (now : Int) (integrationId : String) (db db' : SchedulerDb) (res : SyncResult)
    (h : performIncrementalSync provider now integrationId db = .ok (db', res)) :
    keysPreserved db.calendarEvents db'.calendarEvents := by
  cases hfind : db.integrations.find? (fun i => i.id == integrationId) with
  | none =>
    simp only [performIncrementalSync, hfind] at h
    rw [syncCatch_ok_calendarEvents now integrationId db _ db' res h]
    exact keysPreserved_refl _
  | some integration =>
    cases ht : integration.syncToken with
    | none =>
      simp only [performIncrementalSync, hfind, ht] at h
      exact performFullSync_keysPreserved provider now integrationId db db' res h
    | some token =>
      simp only [performIncrementalSync, hfind, ht] at h
      cases hp : provider integration.calendarId
          { syncToken := some token, timeMin := none, timeMax := none } with
      | error msg =>
        rw [hp] at h
        rw [syncCatch_ok_calendarEvents now integrationId db msg db' res h]
        exact keysPreserved_refl _
      | ok result =>
        rw [hp] at h
        rw [syncApply_ok_calendarEvents now integrationId db result db' res h]
        exact processSyncEvents_keysPreserved now integrationId result.events
          db.calendarEvents

/-- C10 claim theorem: event processing only upserts rows keyed by
(integration id, external event id) and skips events lacking an id or a
concrete start date-time, so neither sync path ever deletes a cached
busy interval; a cached row whose key no valid incoming event carries is
left unchanged, and only the separate 90-day cleanup removes rows, namely
exactly those whose start is older than the retention horizon. -/
theorem sync_never_deletes_cached_intervals (now : Int) (integrationId : String) :
    (∀ events cache,
      keysPreserved cache (processSyncEvents now integrationId events cache).2) ∧
    (∀ events cache,
      processSyncEvents now integrationId events cache =
        processSyncEvents now integrationId
          (events.filter fun ev => !skipEvent ev) cache) ∧
    (∀ events cache (e : CalendarEvent), e ∈ cache →
      (∀ ev ∈ events, skipEvent ev = false →
        ¬ (e.calendarIntegrationId = integrationId ∧ e.externalEventId = ev.id)) →
      e ∈ (processSyncEvents now integrationId events cache).2) ∧
    (∀ db : SchedulerDb,
      (cleanupOldEvents now none db).1.calendarEvents =
        db.calendarEvents.filter
          (fun e => !decide (e.startTime < now - ninetyDaysMs))) ∧
    (∀ provider db db' res,
      performFullSync provider now integrationId db = .ok (db', res) →
      keysPreserved db.calendarEvents db'.calendarEvents) ∧
    (∀ provider db db' res,
      performIncrementalSync provider now integrationId db = .ok (db', res) →
      keysPreserved db.calendarEvents db'.calendarEvents) :=
  ⟨fun events cache => processSyncEvents_keysPreserved now integrationId events cache,
   fun events cache => processSyncEvents_skip_filter now integrationId events cache,
   fun events cache e he hkey =>
     processSyncEvents_untouched now integrationId events cache e he hkey,
   fun _ => rfl,
   fun provider db db' res h =>
     performFullSync_keysPreserved provider now integrationId db db' res h,
   fun provider db db' res h =>
     performIncrementalSync_keysPreserved provider now integrationId db db' res h⟩

/-- Witness for `sync_never_deletes_cached_intervals`: the cached busy
interval survives processing of an unrelated provider event unchanged. -/
theorem sync_never_deletes_cached_intervals_witness :
    busyTenToTenThirty ∈
      (processSyncEvents 0 "int1" [otherProviderEvent] [busyTenToTenThirty]).2 :=
  (sync_never_deletes_cached_intervals 0 "int1").2.2.1
    [otherProviderEvent] [busyTenToTenThirty] busyTenToTenThirty
    (by decide) (by decide)

/-- Slots emitted by the inner loop start no earlier than the loop start
and end no later than the clipped window end. -/
theorem slotLoop_range (clock : ClockModel) (tz : String) (dur maxEnd : Int)
    (hdur : 0 ≤ dur) :
    ∀ (fuel : Nat) (start : Int) (slot : TimeSlot),
      slot ∈ slotLoop clock tz dur maxEnd fuel start →
      start ≤ slot.startTime ∧ slot.endTime ≤ maxEnd := by
  intro fuel
  induction fuel with
  | zero =>
    intro start slot h
    simp [slotLoop] at h
  | succ n ih =>
    intro start slot h
    simp only [slotLoop] at h
    by_cases hc : start + dur ≤ maxEnd
    · rw [if_pos hc] at h
      rcases List.mem_cons.mp h with heq | hmem
      · subst heq
        exact ⟨le_refl start, hc⟩
      · have h2 := ih (start + dur) slot hmem
        exact ⟨by omega, h2.2⟩
    · rw [if_neg hc] at h
      simp at h

/-- Slots emitted for one day lie inside the requested range. -/
theorem daySlots_range (clock : ClockModel) (block : AvailabilityBlock)
    (startDate endDate : Int) (tz : String) (dur : Int) (fuel : Nat)
    (currentDate : Int) (hdur : 0 ≤ dur) (slot : TimeSlot)
    (h : slot ∈ daySlots clock block startDate endDate tz dur fuel currentDate) :
    startDate ≤ slot.startTime ∧ slot.endTime ≤ endDate := by
  simp only [daySlots] at h
  by_cases hd : (clock.dayOfWeekOf currentDate == block.dayOfWeek) = true
  · rw [if_pos hd] at h
    have h2 := slotLoop_range clock tz dur _ hdur fuel _ slot h
    constructor
    · exact le_trans (le_max_right _ _) h2.1
    · exact le_trans h2.2 (min_le_right _ _)
  · rw [if_neg hd] at h
    simp at h

/-- All slots generated from one block lie inside the requested range. -/
theorem dayLoop_range (clock : ClockModel) (block : AvailabilityBlock)
    (startDate endDate : Int) (tz : String) (dur : Int) (slotFuel : Nat)
    (hdur : 0 ≤ dur) :
    ∀ (fuel : Nat) (currentDate : Int) (slot : TimeSlot),
      slot ∈ dayLoop clock block startDate endDate tz dur slotFuel fuel currentDate →
      startDate ≤ slot.startTime ∧ slot.endTime ≤ endDate := by
  intro fuel
  induction fuel with
  | zero =>
    intro currentDate slot h
    simp [dayLoop] at h
  | succ n ih =>
    intro currentDate slot h
    simp only [dayLoop] at h
    by_cases hc : currentDate ≤ endDate
    · rw [if_pos hc] at h
      rcases List.mem_append.mp h with hmem | hmem
      · exact daySlots_range clock block startDate endDate tz dur slotFuel
          currentDate hdur slot hmem
      · exact ih (clock.nextDayStart currentDate) slot hmem
    · rw [if_neg hc] at h
      simp at h

/-- All slots of `generateSlotsFromBlock` lie inside the requested
range (for a nonnegative granularity). -/
theorem generateSlotsFromBlock_range (clock : ClockModel) (fuel : Nat)
    (block : AvailabilityBlock) (startDate endDate : Int) (tz : String)
    (slotDurationMinutes : Int) (hdur : 0 ≤ slotDurationMinutes)
    (slot : TimeSlot)
    (h : slot ∈ generateSlotsFromBlock clock fuel block startDate endDate tz
      slotDurationMinutes) :
    startDate ≤ slot.startTime ∧ slot.endTime ≤ endDate := by
  have hdms : 0 ≤ slotDurationMinutes * 60 * 1000 := by omega
  simp only [generateSlotsFromBlock] at h
  exact dayLoop_range clock block startDate endDate tz _ fuel hdms fuel startDate slot h

/-- A surviving slot overlaps none of the fetched busy intervals and
none of the fetched bookings. -/
theorem slotSurvives_spec (calendarEvents : List Interval)
    (bookings : List Booking) (slot : TimeSlot)
    (h : slotSurvives calendarEvents bookings slot = true) :
    (∀ ev ∈ calendarEvents, slotsOverlap slot.interval ev = false) ∧
    (∀ b ∈ bookings, slotsOverlap slot.interval ⟨b.startTime, b.endTime⟩ = false) := by
  simp only [slotSurvives] at h
  by_cases hc : (calendarEvents.any fun event => slotsOverlap slot.interval event) = true
  · rw [if_pos hc] at h
    exact absurd h (by simp)
  · rw [if_neg hc] at h
    have hc2 : (calendarEvents.any fun event => slotsOverlap slot.interval event) = false :=
      Bool.eq_false_iff.mpr hc
    have hb2 : (bookings.any fun booking =>
        slotsOverlap slot.interval ⟨booking.startTime, booking.endTime⟩) = false := by
      simpa using h
    constructor
    · intro ev hev
      simp only [List.any_eq_false] at hc2
      exact Bool.eq_false_iff.mpr (hc2 ev hev)
    · intro b hb
      simp only [List.any_eq_false] at hb2
      exact Bool.eq_false_iff.mpr (hb2 b hb)

/-- C3 claim theorem (amended): the slot list is always sorted ascending
by start time; no returned slot half-open-overlaps any pending or
confirmed booking of the admin; and when the admin has a google-calendar
integration in sync status `active` (busy intervals of an integration
not in `active` status are not consulted), no returned slot half-open-
overlaps any busy cached interval of that integration.  Granularity is
nonnegative and the admin has at most one google-calendar integration
(section 3 invariant). -/
theorem calculateAvailableSlots_sorted_no_overlap (clock : ClockModel)
    (fuel : Nat) (db : SchedulerDb) (userId : Int) (startDate endDate : Int)
    (userTimezone : String) (slotDurationMinutes : Int)
    (hdur : 0 ≤ slotDurationMinutes)
    (huniq : ∀ i1 ∈ db.integrations, ∀ i2 ∈ db.integrations,
      i1.userId = userId → i2.userId = userId →
      i1.type = "google-calendar" → i2.type = "google-calendar" → i1 = i2) :
    List.Sorted slotLE (calculateAvailableSlots clock fuel db userId startDate
      endDate userTimezone slotDurationMinutes) ∧
    ∀ slot ∈ calculateAvailableSlots clock fuel db userId startDate endDate
        userTimezone slotDurationMinutes,
      (∀ b ∈ db.bookings, b.userId = userId →
        (b.status = BookingStatus.PENDING ∨ b.status = BookingStatus.CONFIRMED) →
        slotsOverlap slot.interval ⟨b.startTime, b.endTime⟩ = false) ∧
      (∀ i ∈ db.integrations, i.userId = userId → i.type = "google-calendar" →
        i.syncStatus = "active" →
        ∀ e ∈ db.calendarEvents, e.calendarIntegrationId = i.id → e.isBusy = true →
          slotsOverlap slot.interval ⟨e.startTime, e.endTime⟩ = false) := by
  by_cases hemp :
      ((db.availabilityBlocks.filter fun b => b.userId == userId && b.isActive).isEmpty) = true
  · constructor
    · simp only [calculateAvailableSlots, hemp, if_true]
      exact List.sorted_nil
    · intro slot hslot
      simp only [calculateAvailableSlots, hemp, if_true] at hslot
      simp at hslot
  · have heq : calculateAvailableSlots clock fuel db userId startDate endDate
        userTimezone slotDurationMinutes =
      (((db.availabilityBlocks.filter fun b => b.userId == userId && b.isActive).map
        (fun block => generateSlotsFromBlock clock fuel block startDate endDate
          userTimezone slotDurationMinutes)).flatten.filter
        (slotSurvives (getCalendarEvents db userId startDate endDate)
          (db.bookings.filter (bookingInRange userId startDate endDate)))).insertionSort
        slotLE := by
      simp only [calculateAvailableSlots, if_neg hemp]
    constructor
    · rw [heq]
      exact List.sorted_insertionSort slotLE _
    · intro slot hslot
      rw [heq, List.mem_insertionSort] at hslot
      obtain ⟨hall, hsurv⟩ := List.mem_filter.mp hslot
      obtain ⟨hnoev, hnobook⟩ := slotSurvives_spec _ _ _ hsurv
      obtain ⟨l0, hl0, hslotl0⟩ := List.mem_flatten.mp hall
      obtain ⟨block, hblock, rfl⟩ := List.mem_map.mp hl0
      have hrange := generateSlotsFromBlock_range clock fuel block startDate endDate
        userTimezone slotDurationMinutes hdur slot hslotl0
      constructor
      · intro b hb huser hstatus
        by_cases hr : bookingInRange userId startDate endDate b = true
        · exact hnobook b (List.mem_filter.mpr ⟨hb, hr⟩)
        · rw [Bool.eq_false_iff]
          intro hover
          apply hr
          simp only [slotsOverlap, TimeSlot.interval, Bool.and_eq_true,
            decide_eq_true_eq] at hover
          simp only [bookingInRange, Bool.and_eq_true, Bool.or_eq_true, beq_iff_eq,
            decide_eq_true_eq]
          exact ⟨⟨huser, hstatus⟩, by omega, by omega⟩
      · intro i hi hiuser hitype histat e he heint hebusy
        have hpred : activeGoogleIntegration userId i = true := by
          simp [activeGoogleIntegration, hiuser, hitype, histat]
        have hsome : (db.integrations.find? (activeGoogleIntegration userId)).isSome = true :=
          List.find?_isSome.mpr ⟨i, hi, hpred⟩
        cases hfind : db.integrations.find? (activeGoogleIntegration userId) with
        | none =>
          rw [hfind] at hsome
          simp at hsome
        | some i0 =>
          have hpred0 := List.find?_some hfind
          have hmem0 := List.mem_of_find?_eq_some hfind
          simp only [activeGoogleIntegration, Bool.and_eq_true, beq_iff_eq] at hpred0
          have hi0eq : i0 = i :=
            huniq i0 hmem0 i hi hpred0.1.1 hiuser hpred0.1.2 hitype
          have hgce : getCalendarEvents db userId startDate endDate =
              (db.calendarEvents.filter fun e2 =>
                e2.calendarIntegrationId == i0.id && e2.isBusy &&
                decide (e2.startTime ≤ endDate) && decide (e2.endTime ≥ startDate)).map
                (fun e2 => ⟨e2.startTime, e2.endTime⟩) := by
            simp only [getCalendarEvents, hfind]
          by_cases hr : (decide (e.startTime ≤ endDate) &&
              decide (e.endTime ≥ startDate)) = true
          · have hq : (e.calendarIntegrationId == i0.id && e.isBusy &&
                decide (e.startTime ≤ endDate) && decide (e.endTime ≥ startDate)) = true := by
              simp only [Bool.and_eq_true, beq_iff_eq, decide_eq_true_eq] at hr ⊢
              exact ⟨⟨⟨by rw [heint, hi0eq], hebusy⟩, hr.1⟩, hr.2⟩
            apply hnoev
            rw [hgce]
            exact List.mem_map.mpr ⟨e, List.mem_filter.mpr ⟨he, hq⟩, rfl⟩
          · rw [Bool.eq_false_iff]
            intro hover
            apply hr
            simp only [slotsOverlap, TimeSlot.interval, Bool.and_eq_true,
              decide_eq_true_eq] at hover
            simp only [Bool.and_eq_true, decide_eq_true_eq]
            exact ⟨by omega, by omega⟩

/-- C3 counterexample: with the integration in sync status `"error"`, the
cached busy interval 10:00–10:30 is not consulted, and
`calculateAvailableSlots` returns the 10:00–10:30 slot even though it
half-open-overlaps a cached busy interval of the admin's calendar
integration. -/
theorem calculateAvailableSlots_stale_busy_cex :
    ∃ slot ∈ calculateAvailableSlots utcClock 3 staleBusyDb 1 0 86399999 "UTC" 30,
      ∃ i ∈ staleBusyDb.integrations, i.userId = 1 ∧
        ∃ e ∈ staleBusyDb.calendarEvents, e.calendarIntegrationId = i.id ∧
          e.isBusy = true ∧
          slotsOverlap slot.interval ⟨e.startTime, e.endTime⟩ = true := by
  decide

/-- Witness for `calculateAvailableSlots_sorted_no_overlap` at the
concrete state `staleBusyDb`. -/
theorem calculateAvailableSlots_sorted_no_overlap_witness :
    List.Sorted slotLE (calculateAvailableSlots utcClock 3 staleBusyDb 1 0
      86399999 "UTC" 30) ∧
    ∀ slot ∈ calculateAvailableSlots utcClock 3 staleBusyDb 1 0 86399999 "UTC" 30,
      (∀ b ∈ staleBusyDb.bookings, b.userId = 1 →
        (b.status = BookingStatus.PENDING ∨ b.status = BookingStatus.CONFIRMED) →
        slotsOverlap slot.interval ⟨b.startTime, b.endTime⟩ = false) ∧
      (∀ i ∈ staleBusyDb.integrations, i.userId = 1 → i.type = "google-calendar" →
        i.syncStatus = "active" →
        ∀ e ∈ staleBusyDb.calendarEvents, e.calendarIntegrationId = i.id →
          e.isBusy = true →
          slotsOverlap slot.interval ⟨e.startTime, e.endTime⟩ = false) :=
  calculateAvailableSlots_sorted_no_overlap utcClock 3 staleBusyDb 1 0 86399999
    "UTC" 30 (by decide) (by decide)

end Calpal
